import Mathlib

/-!
Verification of the safe_network core against its specification.

Shallow embedding of the transfer model (`sn_transfers/src/cashnotes/signed_spend.rs`),
the client API (`sn_client/src/api.rs`), the audit walker (`sn_client/src/audit/mod.rs`)
and the watch-only wallet (`sn_transfers/src/wallet/watch_only.rs`).

Cryptographic primitives (the BLS signature check and the content hash) and the
serde codec live in external crates; they are abstracted as function parameters
of the embedded operations.  Machine integers carry only equality comparisons in
the embedded code paths, so they are modelled as `Nat`.
-/

/-! ## Base types -/

/-- 256-bit content hash (`sn_transfers::cashnotes::Hash`), abstracted. -/
abbrev Hash := Nat

/-- Per-cash-note public key (`UniquePubkey`), abstracted. -/
abbrev UniquePubkey := Nat

/-- BLS signature, abstracted. -/
abbrev Signature := Nat

/-- `NanoTokens` (u64 amount); only compared for equality in the embedded paths. -/
abbrev NanoTokens := Nat

/-- Network address of a spend (`SpendAddress`), abstracted. -/
abbrev SpendAddress := Nat

/-- Derivation index for network royalties, abstracted. -/
abbrev DerivationIndex := Nat

/-- One input of a `Transaction`: `{unique_pubkey, amount}`. -/
structure TxInput where
  unique_pubkey : UniquePubkey
  amount : NanoTokens
deriving DecidableEq, Repr

/-- One output of a `Transaction`: `{unique_pubkey, amount}`. -/
structure TxOutput where
  unique_pubkey : UniquePubkey
  amount : NanoTokens
deriving DecidableEq, Repr

/-- `Transaction = { inputs, outputs }` (sn_transfers). -/
structure Transaction where
  inputs : List TxInput
  outputs : List TxOutput
deriving DecidableEq, Repr

/-- `Spend` from `signed_spend.rs`: ties `parent_tx` (where `unique_pubkey` is an
output) and `spent_tx` (where it is an input). -/
structure Spend where
  unique_pubkey : UniquePubkey
  spent_tx : Transaction
  reason : Hash
  token : NanoTokens
  parent_tx : Transaction
  network_royalties : List DerivationIndex
deriving DecidableEq, Repr

/-- `SignedSpend = { spend, derived_key_sig }`. -/
structure SignedSpend where
  spend : Spend
  derived_key_sig : Signature
deriving DecidableEq, Repr

/-- Errors of `sn_transfers` raised by `SignedSpend::verify`. -/
inductive TransferError where
  | TransactionHashMismatch (expected got : Hash)
  | InvalidSpendValue (pk : UniquePubkey)
  | InvalidSpendSignature (pk : UniquePubkey)
deriving DecidableEq, Repr

/-! ## SignedSpend::verify (signed_spend.rs lines 72-115)

`hashTx` abstracts `Transaction::hash`; `sigVerify` abstracts
`UniquePubkey::verify` (BLS) on the byte encoding of the spend. -/

/-- `Spend::to_bytes`: concatenation of the pubkey bytes, the hash of `spent_tx`,
`reason`, the token bytes and the hash of `parent_tx`; modelled as the list of
those five components. -/
def Spend.to_bytes (hashTx : Transaction → Hash) (s : Spend) : List Nat :=
  [s.unique_pubkey, hashTx s.spent_tx, s.reason, s.token, hashTx s.parent_tx]

/-- `SignedSpend::spent_tx_hash`. -/
def SignedSpend.spent_tx_hash (hashTx : Transaction → Hash) (s : SignedSpend) : Hash :=
  hashTx s.spend.spent_tx

/-- The `creation_value` computed by `SignedSpend::verify`: amount of the first
output of `parent_tx` whose `unique_pubkey` matches, defaulting to zero. -/
def Spend.creation_value (s : Spend) : NanoTokens :=
  ((s.parent_tx.outputs.find? (fun o => o.unique_pubkey = s.unique_pubkey)).map
    TxOutput.amount).getD 0

/-- The `spent_value` computed by `SignedSpend::verify`: amount of the first
input of `spent_tx` whose `unique_pubkey` matches, defaulting to zero. -/
def Spend.spent_value (s : Spend) : NanoTokens :=
  ((s.spent_tx.inputs.find? (fun i => i.unique_pubkey = s.unique_pubkey)).map
    TxInput.amount).getD 0

/-- `SignedSpend::verify(spent_tx_hash)`: hash check, then value-conservation
check, then signature check, in that order. -/
def SignedSpend.verify (hashTx : Transaction → Hash)
    (sigVerify : UniquePubkey → Signature → List Nat → Bool)
    (s : SignedSpend) (spent_tx_hash : Hash) : Except TransferError Unit :=
  if spent_tx_hash ≠ s.spent_tx_hash hashTx then
    .error (.TransactionHashMismatch spent_tx_hash (s.spent_tx_hash hashTx))
  else
    let claimed_value := s.spend.token
    let creation_value := s.spend.creation_value
    let spent_value := s.spend.spent_value
    if claimed_value ≠ creation_value ∨ creation_value ≠ spent_value then
      .error (.InvalidSpendValue s.spend.unique_pubkey)
    else if sigVerify s.spend.unique_pubkey s.derived_key_sig (s.spend.to_bytes hashTx) then
      .ok ()
    else
      .error (.InvalidSpendSignature s.spend.unique_pubkey)

/-! ## Characterisation lemmas for SignedSpend::verify -/

/-- `verify` succeeds exactly when all three checks pass. -/
theorem SignedSpend.verify_ok_iff
    (hashTx : Transaction → Hash) (sigVerify : UniquePubkey → Signature → List Nat → Bool)
    (s : SignedSpend) (h : Hash) :
    s.verify hashTx sigVerify h = .ok () ↔
      (h = s.spent_tx_hash hashTx ∧
       s.spend.token = s.spend.creation_value ∧
       s.spend.creation_value = s.spend.spent_value ∧
       sigVerify s.spend.unique_pubkey s.derived_key_sig (s.spend.to_bytes hashTx) = true) := by
  unfold SignedSpend.verify
  by_cases hh : h = s.spent_tx_hash hashTx
  · by_cases hv : s.spend.token = s.spend.creation_value ∧
        s.spend.creation_value = s.spend.spent_value
    · by_cases hs : sigVerify s.spend.unique_pubkey s.derived_key_sig
          (s.spend.to_bytes hashTx) = true
      · simp [hh, hv.1, hv.2, hs]
      · simp only [Bool.not_eq_true] at hs
        simp [hh, hv.1, hv.2, hs]
    · have hv' : s.spend.token ≠ s.spend.creation_value ∨
          s.spend.creation_value ≠ s.spend.spent_value := by tauto
      simp only [hh, ite_not, if_pos rfl, if_pos hv']
      refine ⟨fun hcontra => absurd hcontra (by simp), fun hcontra => ?_⟩
      exact absurd ⟨hcontra.2.1, hcontra.2.2.1⟩ hv
  · simp [hh]

/-! ## Theorems for C1 and C9 -/

/-- **C1.** `SignedSpend::verify(h)` returns `Ok` iff (a) `h` equals the hash of
`spent_tx`, (b) the token equals the matching output amount of `parent_tx` and
the matching input amount of `spent_tx`, and (c) the signature verifies under
`unique_pubkey` over the canonical bytes of the spend; on failure the error is
`TransactionHashMismatch`, `InvalidSpendValue`, or `InvalidSpendSignature`
respectively, checked in that order. -/
theorem signed_spend_verify_characterisation
    (hashTx : Transaction → Hash) (sigVerify : UniquePubkey → Signature → List Nat → Bool)
    (s : SignedSpend) (h : Hash) :
    (s.verify hashTx sigVerify h = .ok () ↔
      (h = s.spent_tx_hash hashTx ∧
       s.spend.token = s.spend.creation_value ∧
       s.spend.creation_value = s.spend.spent_value ∧
       sigVerify s.spend.unique_pubkey s.derived_key_sig (s.spend.to_bytes hashTx) = true)) ∧
    (s.verify hashTx sigVerify h =
        .error (.TransactionHashMismatch h (s.spent_tx_hash hashTx)) ↔
      h ≠ s.spent_tx_hash hashTx) ∧
    (s.verify hashTx sigVerify h = .error (.InvalidSpendValue s.spend.unique_pubkey) ↔
      (h = s.spent_tx_hash hashTx ∧
       ¬(s.spend.token = s.spend.creation_value ∧
         s.spend.creation_value = s.spend.spent_value))) ∧
    (s.verify hashTx sigVerify h = .error (.InvalidSpendSignature s.spend.unique_pubkey) ↔
      (h = s.spent_tx_hash hashTx ∧
       s.spend.token = s.spend.creation_value ∧
       s.spend.creation_value = s.spend.spent_value ∧
       sigVerify s.spend.unique_pubkey s.derived_key_sig (s.spend.to_bytes hashTx) = false)) := by
  unfold SignedSpend.verify
  by_cases hh : h = s.spent_tx_hash hashTx
  · by_cases hv : s.spend.token = s.spend.creation_value ∧
        s.spend.creation_value = s.spend.spent_value
    · by_cases hs : sigVerify s.spend.unique_pubkey s.derived_key_sig
          (s.spend.to_bytes hashTx) = true
      · simp [hh, hv.1, hv.2, hs]
      · simp only [Bool.not_eq_true] at hs
        simp [hh, hv.1, hv.2, hs]
    · have hv' : s.spend.token ≠ s.spend.creation_value ∨
          s.spend.creation_value ≠ s.spend.spent_value := by tauto
      simp only [hh]
      simp only [ite_not, if_pos rfl, if_pos hv']
      refine ⟨⟨fun hcontra => absurd hcontra (by simp),
               fun hcontra => absurd ⟨hcontra.2.1, hcontra.2.2.1⟩ hv⟩,
              by simp [hh], ?_, ?_⟩
      · simp [hv]
      · refine ⟨fun hcontra => absurd hcontra (by simp), fun hcontra => ?_⟩
        exact absurd ⟨hcontra.2.1, hcontra.2.2.1⟩ hv
  · simp [hh]

/-- **C9.** When the spend's `unique_pubkey` appears in no output of `parent_tx`
and in no input of `spent_tx`, the missing amounts are treated as zero, so for a
spend with token value zero the value-conservation check passes and `verify`
succeeds whenever the hash matches and the signature verifies. -/
theorem signed_spend_verify_missing_amounts_default_zero
    (hashTx : Transaction → Hash) (sigVerify : UniquePubkey → Signature → List Nat → Bool)
    (s : SignedSpend) (h : Hash)
    (hno_out : ∀ o ∈ s.spend.parent_tx.outputs, o.unique_pubkey ≠ s.spend.unique_pubkey)
    (hno_in : ∀ i ∈ s.spend.spent_tx.inputs, i.unique_pubkey ≠ s.spend.unique_pubkey)
    (htok : s.spend.token = 0)
    (hh : h = s.spent_tx_hash hashTx)
    (hsig : sigVerify s.spend.unique_pubkey s.derived_key_sig (s.spend.to_bytes hashTx) = true) :
    s.spend.creation_value = 0 ∧ s.spend.spent_value = 0 ∧
      s.verify hashTx sigVerify h = .ok () := by
  have hcv : s.spend.creation_value = 0 := by
    unfold Spend.creation_value
    have : s.spend.parent_tx.outputs.find?
        (fun o => o.unique_pubkey = s.spend.unique_pubkey) = none := by
      rw [List.find?_eq_none]
      intro o ho
      simpa using hno_out o ho
    simp [this]
  have hsv : s.spend.spent_value = 0 := by
    unfold Spend.spent_value
    have : s.spend.spent_tx.inputs.find?
        (fun i => i.unique_pubkey = s.spend.unique_pubkey) = none := by
      rw [List.find?_eq_none]
      intro i hi
      simpa using hno_in i hi
    simp [this]
  refine ⟨hcv, hsv, ?_⟩
  exact (SignedSpend.verify_ok_iff hashTx sigVerify s h).mpr
    ⟨hh, by rw [htok, hcv], by rw [hcv, hsv], hsig⟩

/-! ## DHT client facade types (sn_client / sn_networking / sn_protocol)

The network, the serde codec and the record header parser are external
collaborators of `sn_client::api`; they are abstracted as function parameters.
The record payload type is a type parameter. -/

/-- Quorum values of the DHT layer. -/
inductive Quorum where
  | One
  | NOf (k : Nat)
  | Majority
  | All
deriving DecidableEq, Repr

/-- Record key in the DHT key space, abstracted. -/
abbrev RecordKey := Nat

/-- Libp2p peer id, abstracted. -/
abbrev PeerId := Nat

/-- `GetRecordCfg` of the DHT layer (generic in the record payload type). -/
structure GetRecordCfg (Record : Type) where
  get_quorum : Quorum
  re_attempt : Bool
  target_record : Option Record
  expected_holders : List PeerId

/-- The 1-byte record kind tag. -/
inductive RecordKind where
  | Chunk
  | ChunkWithPayment
  | Spend
  | Register
deriving DecidableEq, Repr

/-- Errors surfaced by the DHT collaborator to `get_spend_from_network`.  The
source matches `GetRecordError::RecordNotFound` specially and treats every
other network error uniformly, so other errors are modelled by one
constructor carrying an abstract code. -/
inductive NetworkError where
  | GetRecordRecordNotFound
  | Other (code : Nat)
deriving DecidableEq, Repr

/-- Structured stand-in for the diagnostic string interpolated into
`Error::CouldNotVerifyTransfer(format!…)` by `get_spend_from_network`: each
constructor records which failure produced the message and the data the
source interpolates into it. -/
inductive TransferFlowIssue where
  | FetchFailed (e : NetworkError)
  | BadRecordHeader
  | DeserializeFailed
  | NoSpendFound
  | SpendVerifyFailed (e : TransferError)
  | UniquePubkeyMismatch (pk : UniquePubkey)
  | DoubleSpendFound (sig_one sig_two : Signature)
deriving DecidableEq, Repr

/-- `sn_client::Error` variants reachable from `get_spend_from_network`. -/
inductive ClientError where
  | MissingSpendRecord (addr : SpendAddress)
  | CouldNotVerifyTransfer (info : TransferFlowIssue)
  | RecordKindMismatch (expected : RecordKind)
deriving DecidableEq, Repr

/-- The `GetRecordCfg` built by `get_spend_from_network` (api.rs lines
556-561): quorum `Majority`, re-attempt, no target record, no expected
holders. -/
def spend_get_cfg (Record : Type) : GetRecordCfg Record :=
  { get_quorum := .Majority
    re_attempt := true
    target_record := none
    expected_holders := [] }

/-- `Client::get_spend_from_network` (api.rs lines 549-636).
`net` abstracts `Network::get_record_from_network`; `parseHeaderKind`
abstracts `RecordHeader::from_record` (`none` = header parse failure);
`parseSpends` abstracts `try_deserialize_record::<Vec<SignedSpend>>`
(`none` = deserialization failure); `pkToSpendAddr` abstracts
`SpendAddress::from_unique_pubkey`; `addrToKey` abstracts
`NetworkAddress::from_spend_address(address).to_record_key()`. -/
def get_spend_from_network {Record : Type}
    (hashTx : Transaction → Hash)
    (sigVerify : UniquePubkey → Signature → List Nat → Bool)
    (pkToSpendAddr : UniquePubkey → SpendAddress)
    (addrToKey : SpendAddress → RecordKey)
    (net : RecordKey → GetRecordCfg Record → Except NetworkError Record)
    (parseHeaderKind : Record → Option RecordKind)
    (parseSpends : Record → Option (List SignedSpend))
    (address : SpendAddress) : Except ClientError SignedSpend :=
  match net (addrToKey address) (spend_get_cfg Record) with
  | .error .GetRecordRecordNotFound => .error (.MissingSpendRecord address)
  | .error e => .error (.CouldNotVerifyTransfer (.FetchFailed e))
  | .ok record =>
    match parseHeaderKind record with
    | none => .error (.CouldNotVerifyTransfer .BadRecordHeader)
    | some RecordKind.Spend =>
      match parseSpends record with
      | none => .error (.CouldNotVerifyTransfer .DeserializeFailed)
      | some [] => .error (.CouldNotVerifyTransfer .NoSpendFound)
      | some [signed_spend] =>
        if address = pkToSpendAddr signed_spend.spend.unique_pubkey then
          match signed_spend.verify hashTx sigVerify (signed_spend.spent_tx_hash hashTx) with
          | .ok _ => .ok signed_spend
          | .error err => .error (.CouldNotVerifyTransfer (.SpendVerifyFailed err))
        else
          .error (.CouldNotVerifyTransfer
            (.UniquePubkeyMismatch signed_spend.spend.unique_pubkey))
      | some (one :: two :: _) =>
        .error (.CouldNotVerifyTransfer
          (.DoubleSpendFound one.derived_key_sig two.derived_key_sig))
    | some _ => .error (.RecordKindMismatch .Spend)

/-! ## Theorems for C2 and C3 -/

/-- **C2.** Every `SignedSpend` returned with `Ok` by `get_spend_from_network`
(which queries at `get_quorum = Majority`) satisfies
`verify(spent_tx_hash) = Ok`, and the queried address equals the spend address
derived from its `unique_pubkey`; a record whose spend fails verification or
whose `unique_pubkey` does not derive the queried address is never `Ok`. -/
theorem get_spend_from_network_ok_implies_verified {Record : Type}
    (hashTx : Transaction → Hash)
    (sigVerify : UniquePubkey → Signature → List Nat → Bool)
    (pkToSpendAddr : UniquePubkey → SpendAddress)
    (addrToKey : SpendAddress → RecordKey)
    (net : RecordKey → GetRecordCfg Record → Except NetworkError Record)
    (parseHeaderKind : Record → Option RecordKind)
    (parseSpends : Record → Option (List SignedSpend))
    (address : SpendAddress) (s : SignedSpend)
    (hok : get_spend_from_network hashTx sigVerify pkToSpendAddr addrToKey net
      parseHeaderKind parseSpends address = .ok s) :
    (spend_get_cfg Record).get_quorum = Quorum.Majority ∧
    s.verify hashTx sigVerify (s.spent_tx_hash hashTx) = .ok () ∧
    address = pkToSpendAddr s.spend.unique_pubkey := by
  refine ⟨rfl, ?_⟩
  unfold get_spend_from_network at hok
  split at hok
  · exact absurd hok (by simp)
  · exact absurd hok (by simp)
  · split at hok
    · exact absurd hok (by simp)
    · split at hok
      · exact absurd hok (by simp)
      · exact absurd hok (by simp)
      · split at hok
        · rename_i signed_spend haddr
          split at hok
          · rename_i val heq
            injection hok with hs
            subst hs
            cases val
            exact ⟨heq, haddr⟩
          · exact absurd hok (by simp)
        · exact absurd hok (by simp)
      · exact absurd hok (by simp)
    · exact absurd hok (by simp)

/-- **C3.** When the stored record deserializes to a vector of two or more
`SignedSpend`s, `get_spend_from_network` returns the `CouldNotVerifyTransfer`
error citing the signatures of the first two spends; neither spend is returned
as valid. -/
theorem get_spend_from_network_double_spend_cites_both {Record : Type}
    (hashTx : Transaction → Hash)
    (sigVerify : UniquePubkey → Signature → List Nat → Bool)
    (pkToSpendAddr : UniquePubkey → SpendAddress)
    (addrToKey : SpendAddress → RecordKey)
    (net : RecordKey → GetRecordCfg Record → Except NetworkError Record)
    (parseHeaderKind : Record → Option RecordKind)
    (parseSpends : Record → Option (List SignedSpend))
    (address : SpendAddress) (r : Record) (one two : SignedSpend)
    (rest : List SignedSpend)
    (hnet : net (addrToKey address) (spend_get_cfg Record) = .ok r)
    (hkind : parseHeaderKind r = some RecordKind.Spend)
    (hspends : parseSpends r = some (one :: two :: rest)) :
    get_spend_from_network hashTx sigVerify pkToSpendAddr addrToKey net
        parseHeaderKind parseSpends address =
      .error (.CouldNotVerifyTransfer
        (.DoubleSpendFound one.derived_key_sig two.derived_key_sig)) := by
  unfold get_spend_from_network
  simp only [hnet, hkind, hspends]

/-! ## Concrete instances used by witnesses -/

/-- Concrete hash oracle for witnesses. -/
def wHashTx : Transaction → Hash := fun _ => 7

/-- Concrete signature oracle for witnesses (accepts everything). -/
def wSigVerify : UniquePubkey → Signature → List Nat → Bool := fun _ _ _ => true

/-- Concrete empty transaction for witnesses. -/
def wTx : Transaction := { inputs := [], outputs := [] }

/-- Concrete spend for witnesses: key 3, token 0, empty parent and spent txs. -/
def wSpend : Spend :=
  { unique_pubkey := 3
    spent_tx := wTx
    reason := 0
    token := 0
    parent_tx := wTx
    network_royalties := [] }

/-- Concrete signed spend for witnesses. -/
def wSignedSpend : SignedSpend := { spend := wSpend, derived_key_sig := 5 }

/-- A second concrete signed spend (different signature). -/
def wSignedSpend2 : SignedSpend := { spend := wSpend, derived_key_sig := 6 }

/-- Concrete network oracle answering with a single-spend record. -/
def wNetOne : RecordKey → GetRecordCfg (List SignedSpend) →
    Except NetworkError (List SignedSpend) :=
  fun _ _ => .ok [wSignedSpend]

/-- Concrete network oracle answering with a two-spend record. -/
def wNetTwo : RecordKey → GetRecordCfg (List SignedSpend) →
    Except NetworkError (List SignedSpend) :=
  fun _ _ => .ok [wSignedSpend, wSignedSpend2]

/-- Concrete header parser: every record is a spend record. -/
def wParseKind : List SignedSpend → Option RecordKind := fun _ => some .Spend

/-- Concrete payload parser: the record is its own payload. -/
def wParseSpends : List SignedSpend → Option (List SignedSpend) := fun r => some r

/-- Witness for C9 at a concrete spend whose key is in neither transaction. -/
theorem signed_spend_verify_missing_amounts_default_zero_witness :
    wSpend.creation_value = 0 ∧ wSpend.spent_value = 0 ∧
      wSignedSpend.verify wHashTx wSigVerify 7 = .ok () :=
  signed_spend_verify_missing_amounts_default_zero wHashTx wSigVerify wSignedSpend 7
    (fun o ho => absurd ho (List.not_mem_nil o))
    (fun i hi => absurd hi (List.not_mem_nil i))
    rfl rfl rfl

/-- Witness for C2 at a concrete network returning one valid spend. -/
theorem get_spend_from_network_ok_implies_verified_witness :
    (spend_get_cfg (List SignedSpend)).get_quorum = Quorum.Majority ∧
    wSignedSpend.verify wHashTx wSigVerify (wSignedSpend.spent_tx_hash wHashTx) = .ok () ∧
    (3 : SpendAddress) = id wSignedSpend.spend.unique_pubkey :=
  get_spend_from_network_ok_implies_verified wHashTx wSigVerify id id wNetOne
    wParseKind wParseSpends 3 wSignedSpend rfl

/-- Witness for C3 at a concrete record holding two spends. -/
theorem get_spend_from_network_double_spend_cites_both_witness :
    get_spend_from_network wHashTx wSigVerify id id wNetTwo wParseKind wParseSpends 3 =
      .error (.CouldNotVerifyTransfer
        (.DoubleSpendFound wSignedSpend.derived_key_sig wSignedSpend2.derived_key_sig)) :=
  get_spend_from_network_double_spend_cites_both wHashTx wSigVerify id id wNetTwo
    wParseKind wParseSpends 3 [wSignedSpend, wSignedSpend2] wSignedSpend wSignedSpend2 []
    rfl rfl rfl

/-! ## Split-record merge for registers (api.rs lines 720-770)

`SignedRegister`, its signature check `verify` and its CRDT merge
`verified_merge` live in the external `sn_registers` crate; they are
abstracted as a type parameter with two oracles.  `get_register_from_record`
(api.rs lines 720-730) decodes a record, `none` standing for a header,
kind-mismatch or deserialization failure. -/

/-- The error returned by `merge_split_register_records` when no verified
register remains (`Error::Protocol(ProtocolError::RegisterNotFound)`). -/
inductive RegisterMergeError where
  | RegisterNotFound
deriving DecidableEq, Repr

/-- `merge_split_register_records` (api.rs lines 733-770): decode every
record, skipping undecodable ones; pick the first register whose signature
verifies, failing with `RegisterNotFound` when there is none; fold the
remaining registers into it with `verified_merge`, keeping the accumulator
unchanged whenever a merge fails. -/
def merge_split_register_records {RecordR RegisterT : Type}
    (get_register_from_record : RecordR → Option RegisterT)
    (regVerifyOk : RegisterT → Bool)
    (verified_merge : RegisterT → RegisterT → Option RegisterT)
    (records : List RecordR) : Except RegisterMergeError RegisterT :=
  match (records.filterMap get_register_from_record).find? (fun r => regVerifyOk r) with
  | none => .error .RegisterNotFound
  | some one_valid_reg =>
    .ok ((records.filterMap get_register_from_record).foldl
      (fun acc r =>
        match verified_merge acc r with
        | some merged => merged
        | none => acc)
      one_valid_reg)

/-! ## Audit walker shared pieces (audit/mod.rs) -/

/-- Structured stand-in for the diagnostic strings interpolated into
`WalletError::CouldNotVerifyTransfer(format!…)` by the audit walker. -/
inductive AuditIssue where
  | FirstSpendFetch (e : ClientError)
  | SpendFetchAtDepth (depth : Nat) (txHash : Hash) (e : ClientError)
  | TxVerifyAtDepth (depth : Nat) (txHash : Hash)
  | SpendFetchAtGen (gen : Nat) (txHash : Hash) (e : ClientError)
deriving DecidableEq, Repr

/-- `WalletError` as produced by the audit walker. -/
inductive WalletError where
  | CouldNotVerifyTransfer (info : AuditIssue)
deriving DecidableEq, Repr

/-- `split_utxos_and_spends` (audit/mod.rs lines 300-322): `Ok` goes to the
spend list, `MissingSpendRecord` to the UTXO list, any other error aborts. -/
def split_utxos_and_spends :
    List (Except ClientError SignedSpend) →
    Except ClientError (List SpendAddress × List SignedSpend)
  | [] => .ok ([], [])
  | res :: rest =>
    match res with
    | .ok spend =>
      match split_utxos_and_spends rest with
      | .ok (utxos, spends) => .ok (utxos, spend :: spends)
      | .error e => .error e
    | .error (.MissingSpendRecord addr) =>
      match split_utxos_and_spends rest with
      | .ok (utxos, spends) => .ok (addr :: utxos, spends)
      | .error e => .error e
    | .error err => .error err

/-- A fetch result that is neither a spend nor an authoritative absence. -/
def isFatalFetch : Except ClientError SignedSpend → Bool
  | .ok _ => false
  | .error (.MissingSpendRecord _) => false
  | .error _ => true

/-- The spends among a list of fetch results, in order. -/
def okSpends (rs : List (Except ClientError SignedSpend)) : List SignedSpend :=
  rs.filterMap (fun r => match r with | .ok s => some s | _ => none)

/-- The `MissingSpendRecord` addresses among a list of fetch results, in order. -/
def missingAddrs (rs : List (Except ClientError SignedSpend)) : List SpendAddress :=
  rs.filterMap (fun r =>
    match r with | .error (.MissingSpendRecord a) => some a | _ => none)

/-- The fetch results of one generation step of `follow_spend` for one
descendant transaction (audit/mod.rs lines 181-193): the spend addresses of
the transaction's outputs, fetched through `get_spend_from_network`
(abstracted as `fetch`). -/
def descendant_fetch_results
    (pkToSpendAddr : UniquePubkey → SpendAddress)
    (fetch : SpendAddress → Except ClientError SignedSpend)
    (tx : Transaction) : List (Except ClientError SignedSpend) :=
  (tx.outputs.map (fun o => pkToSpendAddr o.unique_pubkey)).map fetch

/-- One generation of `follow_spend` (audit/mod.rs lines 179-213): for each
descendant transaction, fetch its outputs' spends, split them into UTXOs and
spends (an unexpected error aborts with `CouldNotVerifyTransfer`), collect
the UTXOs, and queue each found spend's `spent_tx` for the next generation. -/
def follow_generation
    (pkToSpendAddr : UniquePubkey → SpendAddress)
    (fetch : SpendAddress → Except ClientError SignedSpend)
    (hashTx : Transaction → Hash) (gen : Nat) :
    List Transaction → Except WalletError (List SpendAddress × List Transaction)
  | [] => .ok ([], [])
  | tx :: rest =>
    match split_utxos_and_spends (descendant_fetch_results pkToSpendAddr fetch tx) with
    | .error err =>
      .error (.CouldNotVerifyTransfer (.SpendFetchAtGen gen (hashTx tx) err))
    | .ok (utxos, spends) =>
      match follow_generation pkToSpendAddr fetch hashTx gen rest with
      | .error e => .error e
      | .ok (utxos', nexts) =>
        .ok (utxos ++ utxos', spends.map (fun s => s.spend.spent_tx) ++ nexts)

/-- The loop of `follow_spend` (audit/mod.rs lines 174-231), with explicit
fuel (`none` = fuel exhausted): process a generation, extend the UTXO set,
record the hashes of the processed transactions, and keep only
not-yet-verified transactions in the next frontier. -/
def follow_spend_loop
    (pkToSpendAddr : UniquePubkey → SpendAddress)
    (fetch : SpendAddress → Except ClientError SignedSpend)
    (hashTx : Transaction → Hash) :
    Nat → List Transaction → List SpendAddress → List Hash → Nat →
    Option (Except WalletError (List SpendAddress))
  | 0, _, _, _, _ => none
  | _ + 1, [], all_utxos, _, _ => some (.ok all_utxos)
  | fuel + 1, tx :: txs, all_utxos, verified_tx, gen =>
    match follow_generation pkToSpendAddr fetch hashTx gen (tx :: txs) with
    | .error e => some (.error e)
    | .ok (next_gen_utxos, next_gen_tx) =>
      let verified' := verified_tx ++ (tx :: txs).map hashTx
      let next := next_gen_tx.dedup.filter (fun t => ¬ verified'.contains (hashTx t))
      follow_spend_loop pkToSpendAddr fetch hashTx fuel next
        (all_utxos ++ next_gen_utxos) verified' (gen + 1)

/-- `Client::follow_spend` (audit/mod.rs lines 155-238): fetch the first
spend (failure becomes `CouldNotVerifyTransfer`), then walk the descendant
transactions generation by generation. -/
def follow_spend
    (pkToSpendAddr : UniquePubkey → SpendAddress)
    (fetch : SpendAddress → Except ClientError SignedSpend)
    (hashTx : Transaction → Hash)
    (fuel : Nat) (spend_addr : SpendAddress) :
    Option (Except WalletError (List SpendAddress)) :=
  match fetch spend_addr with
  | .error err => some (.error (.CouldNotVerifyTransfer (.FirstSpendFetch err)))
  | .ok first_spend =>
    follow_spend_loop pkToSpendAddr fetch hashTx fuel
      [first_spend.spend.spent_tx] [] [] 0

/-! ## Lemmas about split_utxos_and_spends -/

/-- When every fetch result is benign, `split_utxos_and_spends` succeeds and
classifies each result: absences into the UTXO list, spends into the spend
list. -/
theorem split_utxos_and_spends_of_all_benign
    (rs : List (Except ClientError SignedSpend))
    (hall : ∀ r ∈ rs, isFatalFetch r = false) :
    split_utxos_and_spends rs = .ok (missingAddrs rs, okSpends rs) := by
  induction rs with
  | nil => rfl
  | cons r rest ih =>
    have hr : isFatalFetch r = false := hall r (by simp)
    have hrest : split_utxos_and_spends rest = .ok (missingAddrs rest, okSpends rest) :=
      ih (fun x hx => hall x (by simp [hx]))
    match r, hr with
    | .ok s, _ =>
      simp [split_utxos_and_spends, hrest, missingAddrs, okSpends]
    | .error (.MissingSpendRecord a), _ =>
      simp [split_utxos_and_spends, hrest, missingAddrs, okSpends]

/-- `split_utxos_and_spends` succeeds only when every fetch result is benign. -/
theorem split_utxos_and_spends_ok_implies_benign
    (rs : List (Except ClientError SignedSpend))
    (p : List SpendAddress × List SignedSpend)
    (hok : split_utxos_and_spends rs = .ok p) :
    ∀ r ∈ rs, isFatalFetch r = false := by
  induction rs generalizing p with
  | nil => simp
  | cons r rest ih =>
    intro x hx
    rcases List.mem_cons.mp hx with heq | hmem
    · subst heq
      cases x with
      | ok s => rfl
      | error e =>
        cases e with
        | MissingSpendRecord a => rfl
        | CouldNotVerifyTransfer info =>
          simp [split_utxos_and_spends] at hok
        | RecordKindMismatch k =>
          simp [split_utxos_and_spends] at hok
    · clear hx
      cases r with
      | ok s =>
        simp only [split_utxos_and_spends] at hok
        cases hsplit : split_utxos_and_spends rest with
        | ok q => exact ih q hsplit x hmem
        | error e => rw [hsplit] at hok; exact absurd hok (by simp)
      | error e =>
        cases e with
        | MissingSpendRecord a =>
          simp only [split_utxos_and_spends] at hok
          cases hsplit : split_utxos_and_spends rest with
          | ok q => exact ih q hsplit x hmem
          | error e' => rw [hsplit] at hok; exact absurd hok (by simp)
        | CouldNotVerifyTransfer info => simp [split_utxos_and_spends] at hok
        | RecordKindMismatch k => simp [split_utxos_and_spends] at hok

/-- A fatal fetch result forces `split_utxos_and_spends` to return an error. -/
theorem split_utxos_and_spends_err_of_fatal
    (rs : List (Except ClientError SignedSpend))
    (hex : ∃ r ∈ rs, isFatalFetch r = true) :
    ∃ e, split_utxos_and_spends rs = .error e := by
  cases hsplit : split_utxos_and_spends rs with
  | ok p =>
    obtain ⟨r, hr, hfatal⟩ := hex
    have := split_utxos_and_spends_ok_implies_benign rs p hsplit r hr
    simp [this] at hfatal
  | error e => exact ⟨e, rfl⟩

/-! ## Theorem and witness for C4 -/

/-- **C4.** `merge_split_register_records` returns `Err(RegisterNotFound)` iff
no decoded register passes signature verification; whenever at least one
decoded replica verifies it returns `Ok` with a merged register (replicas that
fail to decode are dropped by `filterMap`, and replicas that fail to merge
leave the fold's accumulator unchanged rather than raising an error). -/
theorem merge_split_register_records_characterisation
    {RecordR RegisterT : Type}
    (get_register_from_record : RecordR → Option RegisterT)
    (regVerifyOk : RegisterT → Bool)
    (verified_merge : RegisterT → RegisterT → Option RegisterT)
    (records : List RecordR) :
    (merge_split_register_records get_register_from_record regVerifyOk verified_merge
        records = .error .RegisterNotFound ↔
      ∀ r ∈ records.filterMap get_register_from_record, regVerifyOk r = false) ∧
    ((∃ r ∈ records.filterMap get_register_from_record, regVerifyOk r = true) →
      ∃ reg, merge_split_register_records get_register_from_record regVerifyOk
          verified_merge records = .ok reg) := by
  unfold merge_split_register_records
  cases hfind : (records.filterMap get_register_from_record).find?
      (fun r => regVerifyOk r) with
  | none =>
    have hall := List.find?_eq_none.mp hfind
    refine ⟨⟨fun _ r hr => ?_, fun _ => rfl⟩, fun hex => ?_⟩
    · simpa using hall r hr
    · obtain ⟨r, hr, hv⟩ := hex
      exact absurd hv (by simpa using hall r hr)
  | some reg =>
    have hmem := List.mem_of_find?_eq_some hfind
    have hv := List.find?_some hfind
    refine ⟨⟨fun hcontra => absurd hcontra (by simp), fun hall => ?_⟩, fun _ => ⟨_, rfl⟩⟩
    exact absurd hv (by simp [hall reg hmem])

/-- Concrete decode oracle for the C4 witness: every record decodes. -/
def wRegDecode : Nat → Option Nat := some

/-- Concrete register verification for the C4 witness. -/
def wRegVerify : Nat → Bool := fun r => r == 1

/-- Concrete register merge for the C4 witness. -/
def wRegMerge : Nat → Nat → Option Nat := fun a b => some (a + b)

/-- Witness for C4: with one decodable, verifying replica the merge returns
`Ok`. -/
theorem merge_split_register_records_characterisation_witness :
    ∃ reg, merge_split_register_records wRegDecode wRegVerify wRegMerge [1] = .ok reg :=
  (merge_split_register_records_characterisation wRegDecode wRegVerify wRegMerge [1]).2
    ⟨1, by simp [wRegDecode], by decide⟩

/-! ## Theorem and witness for C5 -/

/-- **C5.** In a `follow_spend` generation step, each fetched output address is
classified exactly two ways: an `Ok(SignedSpend)` contributes the spend's
`spent_tx` to the next frontier and a `MissingSpendRecord` contributes the
address to the UTXO set, while any other fetch error aborts the whole walk
with a `CouldNotVerifyTransfer` error. -/
theorem follow_spend_fetch_classification
    (pkToSpendAddr : UniquePubkey → SpendAddress)
    (fetch : SpendAddress → Except ClientError SignedSpend)
    (hashTx : Transaction → Hash)
    (gen fuel : Nat) (tx : Transaction) (txs : List Transaction)
    (all_utxos : List SpendAddress) (verified_tx : List Hash) :
    ((∀ r ∈ descendant_fetch_results pkToSpendAddr fetch tx, isFatalFetch r = false) →
      follow_generation pkToSpendAddr fetch hashTx gen [tx] =
        .ok (missingAddrs (descendant_fetch_results pkToSpendAddr fetch tx),
             (okSpends (descendant_fetch_results pkToSpendAddr fetch tx)).map
               (fun s => s.spend.spent_tx))) ∧
    ((∃ r ∈ descendant_fetch_results pkToSpendAddr fetch tx, isFatalFetch r = true) →
      ∃ e, follow_generation pkToSpendAddr fetch hashTx gen (tx :: txs) =
            .error (.CouldNotVerifyTransfer (.SpendFetchAtGen gen (hashTx tx) e)) ∧
          follow_spend_loop pkToSpendAddr fetch hashTx (fuel + 1) (tx :: txs)
              all_utxos verified_tx gen =
            some (.error (.CouldNotVerifyTransfer (.SpendFetchAtGen gen (hashTx tx) e)))) := by
  constructor
  · intro hall
    have hsplit := split_utxos_and_spends_of_all_benign _ hall
    simp [follow_generation, hsplit]
  · intro hex
    obtain ⟨e, hsplit⟩ := split_utxos_and_spends_err_of_fatal _ hex
    refine ⟨e, ?_, ?_⟩
    · simp [follow_generation, hsplit]
    · simp [follow_spend_loop, follow_generation, hsplit]

/-- Concrete transaction for the C5 witness: two outputs, keys 3 and 2. -/
def wTxOuts : Transaction :=
  { inputs := []
    outputs := [{ unique_pubkey := 3, amount := 0 }, { unique_pubkey := 2, amount := 0 }] }

/-- Concrete fetch oracle for the C5 witness: address 3 is spent, everything
else is an authoritative absence. -/
def wFetchBenign : SpendAddress → Except ClientError SignedSpend :=
  fun a => if a = 3 then .ok wSignedSpend else .error (.MissingSpendRecord a)

/-- Concrete fetch oracle for the C5 witness: every fetch fails fatally. -/
def wFetchFatal : SpendAddress → Except ClientError SignedSpend :=
  fun _ => .error (.RecordKindMismatch .Spend)

/-- Witness for C5: the benign generation classifies both outputs, and a fatal
fetch aborts the walk. -/
theorem follow_spend_fetch_classification_witness :
    (follow_generation id wFetchBenign wHashTx 0 [wTxOuts] =
      .ok (missingAddrs (descendant_fetch_results id wFetchBenign wTxOuts),
           (okSpends (descendant_fetch_results id wFetchBenign wTxOuts)).map
             (fun s => s.spend.spent_tx))) ∧
    (∃ e, follow_generation id wFetchFatal wHashTx 0 [wTxOuts] =
            .error (.CouldNotVerifyTransfer (.SpendFetchAtGen 0 (wHashTx wTxOuts) e)) ∧
          follow_spend_loop id wFetchFatal wHashTx 1 [wTxOuts] [] [] 0 =
            some (.error (.CouldNotVerifyTransfer (.SpendFetchAtGen 0 (wHashTx wTxOuts) e)))) :=
  ⟨(follow_spend_fetch_classification id wFetchBenign wHashTx 0 0 wTxOuts [] [] []).1
      (by decide),
   (follow_spend_fetch_classification id wFetchFatal wHashTx 0 0 wTxOuts [] [] []).2
      (by decide)⟩

/-! ## The ancestor walk verify_spend (audit/mod.rs lines 50-129)

`verify_against_inputs_spent` lives in the external part of `sn_transfers`
and is abstracted as the boolean oracle `txVerify`; the genesis cash note's
`src_tx` and `id` are the constants `genesis_src_tx` and `genesis_id`. -/

/-- `collect::<Result<…>>` over the parallel fetch results (audit/mod.rs
lines 76-83): the first error aborts. -/
def collect_spend_results :
    List (Except ClientError SignedSpend) → Except ClientError (List SignedSpend)
  | [] => .ok []
  | r :: rest =>
    match r with
    | .error e => .error e
    | .ok s =>
      match collect_spend_results rest with
      | .error e => .error e
      | .ok ss => .ok (s :: ss)

/-- `BTreeSet<SignedSpend>` insertion.  The derived `Ord` on `SignedSpend`
(signed_spend.rs line 17) compares `spend` first — and `Spend`'s manual `Ord`
(signed_spend.rs lines 181-185) compares only `unique_pubkey` — then
tie-breaks on `derived_key_sig`; so two spends compare equal exactly when
both their `unique_pubkey` and their `derived_key_sig` agree, and only then
does `BTreeSet::insert` keep the existing element.  Same-pubkey spends with
different signatures stay distinct elements of the set. -/
def insertBySpendOrd (acc : List SignedSpend) (s : SignedSpend) : List SignedSpend :=
  if acc.any (fun t =>
      t.spend.unique_pubkey == s.spend.unique_pubkey &&
      t.derived_key_sig == s.derived_key_sig) then acc
  else acc ++ [s]

/-- Collect fetched spends into the `BTreeSet`, deduplicating by the derived
`Ord` equivalence: equal `unique_pubkey` and equal `derived_key_sig`. -/
def dedupBySpendOrd (l : List SignedSpend) : List SignedSpend :=
  l.foldl insertBySpendOrd []

/-- The fetch results for the inputs of one parent transaction (audit/mod.rs
lines 71-79): spend addresses of the transaction's inputs, fetched through
`get_spend_from_network` (abstracted as `fetch`). -/
def parent_fetch_results
    (pkToSpendAddr : UniquePubkey → SpendAddress)
    (fetch : SpendAddress → Except ClientError SignedSpend)
    (parent_tx : Transaction) : List (Except ClientError SignedSpend) :=
  (parent_tx.inputs.map (fun i => pkToSpendAddr i.unique_pubkey)).map fetch

/-- The `spends` set of one `verify_spend` iteration (audit/mod.rs lines
80-83). -/
def collect_parent_spends
    (pkToSpendAddr : UniquePubkey → SpendAddress)
    (fetch : SpendAddress → Except ClientError SignedSpend)
    (parent_tx : Transaction) : Except ClientError (List SignedSpend) :=
  match collect_spend_results (parent_fetch_results pkToSpendAddr fetch parent_tx) with
  | .error e => .error e
  | .ok ss => .ok (dedupBySpendOrd ss)

/-- The genesis terminator check (audit/mod.rs lines 91-96). -/
def reached_genesis (genesis_src_tx : Transaction) (genesis_id : UniquePubkey)
    (parent_tx : Transaction) (spends : List SignedSpend) : Bool :=
  parent_tx == genesis_src_tx &&
    spends.all (fun s => s.spend.unique_pubkey == genesis_id) &&
    spends.length == 1

/-- One parent transaction of one `verify_spend` generation (audit/mod.rs
lines 69-110): fetch the input spends (an error aborts), stop at the genesis
terminator with no new frontier entries, otherwise require
`verify_against_inputs_spent` and queue every spend's `parent_tx`. -/
def verify_tx_step
    (pkToSpendAddr : UniquePubkey → SpendAddress)
    (fetch : SpendAddress → Except ClientError SignedSpend)
    (txVerify : Transaction → List SignedSpend → Bool)
    (genesis_src_tx : Transaction) (genesis_id : UniquePubkey)
    (hashTx : Transaction → Hash)
    (depth : Nat) (parent_tx : Transaction) :
    Except WalletError (List Transaction) :=
  match collect_parent_spends pkToSpendAddr fetch parent_tx with
  | .error err =>
    .error (.CouldNotVerifyTransfer (.SpendFetchAtDepth depth (hashTx parent_tx) err))
  | .ok spends =>
    if reached_genesis genesis_src_tx genesis_id parent_tx spends then
      .ok []
    else if txVerify parent_tx spends then
      .ok (spends.map (fun s => s.spend.parent_tx))
    else
      .error (.CouldNotVerifyTransfer (.TxVerifyAtDepth depth (hashTx parent_tx)))

/-- `BTreeSet<Hash>` insertion for `verified_tx`. -/
def insertHash (l : List Hash) (h : Hash) : List Hash :=
  if l.contains h then l else l ++ [h]

/-- One full generation of `verify_spend` (the `for` loop at audit/mod.rs
lines 69-111): process every frontier transaction in order, inserting its
hash into `verified_tx` on success and collecting the raw next frontier. -/
def verify_generation
    (pkToSpendAddr : UniquePubkey → SpendAddress)
    (fetch : SpendAddress → Except ClientError SignedSpend)
    (txVerify : Transaction → List SignedSpend → Bool)
    (genesis_src_tx : Transaction) (genesis_id : UniquePubkey)
    (hashTx : Transaction → Hash) (depth : Nat) :
    List Transaction → List Hash → Except WalletError (List Hash × List Transaction)
  | [], verified_tx => .ok (verified_tx, [])
  | tx :: rest, verified_tx =>
    match verify_tx_step pkToSpendAddr fetch txVerify genesis_src_tx genesis_id
        hashTx depth tx with
    | .error e => .error e
    | .ok nexts =>
      match verify_generation pkToSpendAddr fetch txVerify genesis_src_tx genesis_id
          hashTx depth rest (insertHash verified_tx (hashTx tx)) with
      | .error e => .error e
      | .ok (verified', nexts') => .ok (verified', nexts ++ nexts')

/-- The state of the `verify_spend` loop: the frontier `txs_to_verify`, the
set `verified_tx` and the depth counter. -/
structure VerifyWalkState where
  txs_to_verify : List Transaction
  verified_tx : List Hash
  depth : Nat
deriving DecidableEq, Repr

/-- One transition of the `verify_spend` loop (audit/mod.rs lines 66-123):
run a generation, then keep only transactions whose hash is not yet verified
in the next frontier, and bump the depth. -/
def verify_spend_next
    (pkToSpendAddr : UniquePubkey → SpendAddress)
    (fetch : SpendAddress → Except ClientError SignedSpend)
    (txVerify : Transaction → List SignedSpend → Bool)
    (genesis_src_tx : Transaction) (genesis_id : UniquePubkey)
    (hashTx : Transaction → Hash)
    (st : VerifyWalkState) : Except WalletError VerifyWalkState :=
  match verify_generation pkToSpendAddr fetch txVerify genesis_src_tx genesis_id
      hashTx st.depth st.txs_to_verify st.verified_tx with
  | .error e => .error e
  | .ok (verified', next_raw) =>
    .ok { txs_to_verify :=
            next_raw.dedup.filter (fun t => ¬ verified'.contains (hashTx t))
          verified_tx := verified'
          depth := st.depth + 1 }

/-- The `verify_spend` loop with explicit fuel (`none` = fuel exhausted); it
exits successfully exactly when the frontier is empty, returning the
verified hashes. -/
def verify_spend_loop
    (pkToSpendAddr : UniquePubkey → SpendAddress)
    (fetch : SpendAddress → Except ClientError SignedSpend)
    (txVerify : Transaction → List SignedSpend → Bool)
    (genesis_src_tx : Transaction) (genesis_id : UniquePubkey)
    (hashTx : Transaction → Hash) :
    Nat → VerifyWalkState → Option (Except WalletError (List Hash))
  | 0, _ => none
  | _ + 1, ⟨[], verified_tx, _⟩ => some (.ok verified_tx)
  | fuel + 1, st@⟨_ :: _, _, _⟩ =>
    match verify_spend_next pkToSpendAddr fetch txVerify genesis_src_tx genesis_id
        hashTx st with
    | .error e => some (.error e)
    | .ok st' =>
      verify_spend_loop pkToSpendAddr fetch txVerify genesis_src_tx genesis_id
        hashTx fuel st'

/-- Iterated loop transitions, to speak about the frontier several
generations later. -/
def verify_spend_iterate
    (pkToSpendAddr : UniquePubkey → SpendAddress)
    (fetch : SpendAddress → Except ClientError SignedSpend)
    (txVerify : Transaction → List SignedSpend → Bool)
    (genesis_src_tx : Transaction) (genesis_id : UniquePubkey)
    (hashTx : Transaction → Hash) :
    Nat → VerifyWalkState → Except WalletError VerifyWalkState
  | 0, st => .ok st
  | n + 1, st =>
    match verify_spend_next pkToSpendAddr fetch txVerify genesis_src_tx genesis_id
        hashTx st with
    | .error e => .error e
    | .ok st' =>
      verify_spend_iterate pkToSpendAddr fetch txVerify genesis_src_tx genesis_id
        hashTx n st'

/-- `Client::verify_spend` (audit/mod.rs lines 50-129): fetch and verify the
first spend through `get_spend_from_network` (abstracted as `fetch`), stop
there unless `to_genesis`, otherwise walk the ancestry from
`first_spend.spend.parent_tx`. -/
def verify_spend
    (pkToSpendAddr : UniquePubkey → SpendAddress)
    (fetch : SpendAddress → Except ClientError SignedSpend)
    (txVerify : Transaction → List SignedSpend → Bool)
    (genesis_src_tx : Transaction) (genesis_id : UniquePubkey)
    (hashTx : Transaction → Hash)
    (fuel : Nat) (addr : SpendAddress) (to_genesis : Bool) :
    Option (Except WalletError (List Hash)) :=
  match fetch addr with
  | .error err => some (.error (.CouldNotVerifyTransfer (.FirstSpendFetch err)))
  | .ok first_spend =>
    if !to_genesis then some (.ok [])
    else
      verify_spend_loop pkToSpendAddr fetch txVerify genesis_src_tx genesis_id
        hashTx fuel ⟨[first_spend.spend.parent_tx], [], 0⟩

/-! ## Lemmas about the verify_spend walk -/

section VerifyWalk

variable (pkToSpendAddr : UniquePubkey → SpendAddress)
variable (fetch : SpendAddress → Except ClientError SignedSpend)
variable (txVerify : Transaction → List SignedSpend → Bool)
variable (genesis_src_tx : Transaction) (genesis_id : UniquePubkey)
variable (hashTx : Transaction → Hash)

/-- `insertHash` preserves membership. -/
theorem insertHash_mem_of_mem (l : List Hash) (g h : Hash) (hg : g ∈ l) :
    g ∈ insertHash l h := by
  unfold insertHash
  split
  · exact hg
  · exact List.mem_append_left _ hg

/-- A successful generation only grows the `verified_tx` set. -/
theorem verify_generation_verified_mono
    (depth : Nat) (txs : List Transaction) (verified_tx v' : List Hash)
    (nexts : List Transaction)
    (hok : verify_generation pkToSpendAddr fetch txVerify genesis_src_tx genesis_id
      hashTx depth txs verified_tx = .ok (v', nexts)) :
    ∀ g ∈ verified_tx, g ∈ v' := by
  induction txs generalizing verified_tx v' nexts with
  | nil =>
    simp only [verify_generation, Except.ok.injEq, Prod.mk.injEq] at hok
    rw [← hok.1]
    exact fun g hg => hg
  | cons tx rest ih =>
    simp only [verify_generation] at hok
    cases hstep : verify_tx_step pkToSpendAddr fetch txVerify genesis_src_tx genesis_id
        hashTx depth tx with
    | error e => rw [hstep] at hok; exact absurd hok (by simp)
    | ok nexts1 =>
      rw [hstep] at hok
      cases hrec : verify_generation pkToSpendAddr fetch txVerify genesis_src_tx
          genesis_id hashTx depth rest (insertHash verified_tx (hashTx tx)) with
      | error e => rw [hrec] at hok; exact absurd hok (by simp)
      | ok p =>
        obtain ⟨v'', nexts''⟩ := p
        rw [hrec] at hok
        simp only [Except.ok.injEq, Prod.mk.injEq] at hok
        intro g hg
        rw [← hok.1]
        exact ih _ v'' nexts'' hrec g (insertHash_mem_of_mem verified_tx g (hashTx tx) hg)

/-- A transaction step succeeds only if its input spends were all fetched and
the transaction is the genesis terminator or passes
`verify_against_inputs_spent`. -/
theorem verify_tx_step_ok_condition
    (depth : Nat) (tx : Transaction) (nexts1 : List Transaction)
    (hok : verify_tx_step pkToSpendAddr fetch txVerify genesis_src_tx genesis_id
      hashTx depth tx = .ok nexts1) :
    ∃ spends, collect_parent_spends pkToSpendAddr fetch tx = .ok spends ∧
      (reached_genesis genesis_src_tx genesis_id tx spends = true ∨
       txVerify tx spends = true) := by
  unfold verify_tx_step at hok
  cases hcol : collect_parent_spends pkToSpendAddr fetch tx with
  | error e => rw [hcol] at hok; exact absurd hok (by simp)
  | ok spends =>
    rw [hcol] at hok
    dsimp only at hok
    by_cases hg : reached_genesis genesis_src_tx genesis_id tx spends = true
    · exact ⟨spends, rfl, .inl hg⟩
    · by_cases hv : txVerify tx spends = true
      · exact ⟨spends, rfl, .inr hv⟩
      · simp only [Bool.not_eq_true] at hg hv
        rw [hg, hv] at hok
        simp at hok

/-- Every transaction processed by a successful generation has its input
spends fetched and is either the genesis terminator or verified. -/
theorem verify_generation_per_tx
    (depth : Nat) (txs : List Transaction) (verified_tx v' : List Hash)
    (nexts : List Transaction)
    (hok : verify_generation pkToSpendAddr fetch txVerify genesis_src_tx genesis_id
      hashTx depth txs verified_tx = .ok (v', nexts)) :
    ∀ tx ∈ txs, ∃ spends,
      collect_parent_spends pkToSpendAddr fetch tx = .ok spends ∧
      (reached_genesis genesis_src_tx genesis_id tx spends = true ∨
       txVerify tx spends = true) := by
  induction txs generalizing verified_tx v' nexts with
  | nil => simp
  | cons tx rest ih =>
    intro x hx
    simp only [verify_generation] at hok
    cases hstep : verify_tx_step pkToSpendAddr fetch txVerify genesis_src_tx genesis_id
        hashTx depth tx with
    | error e => rw [hstep] at hok; exact absurd hok (by simp)
    | ok nexts1 =>
      rw [hstep] at hok
      cases hrec : verify_generation pkToSpendAddr fetch txVerify genesis_src_tx
          genesis_id hashTx depth rest (insertHash verified_tx (hashTx tx)) with
      | error e => rw [hrec] at hok; exact absurd hok (by simp)
      | ok p =>
        rcases List.mem_cons.mp hx with heq | hmem
        · subst heq
          exact verify_tx_step_ok_condition pkToSpendAddr fetch txVerify genesis_src_tx
            genesis_id hashTx depth x nexts1 hstep
        · exact ih _ p.1 p.2 (by rw [hrec]) x hmem

/-- One loop transition grows `verified_tx` and produces a frontier disjoint
from it. -/
theorem verify_spend_next_ok_invariant
    (st st' : VerifyWalkState)
    (hok : verify_spend_next pkToSpendAddr fetch txVerify genesis_src_tx genesis_id
      hashTx st = .ok st') :
    (∀ g ∈ st.verified_tx, g ∈ st'.verified_tx) ∧
    (∀ tx ∈ st'.txs_to_verify, hashTx tx ∉ st'.verified_tx) := by
  unfold verify_spend_next at hok
  cases hgen : verify_generation pkToSpendAddr fetch txVerify genesis_src_tx genesis_id
      hashTx st.depth st.txs_to_verify st.verified_tx with
  | error e => rw [hgen] at hok; exact absurd hok (by simp)
  | ok p =>
    obtain ⟨v', raw⟩ := p
    rw [hgen] at hok
    injection hok with h1
    subst h1
    constructor
    · exact fun g hg => verify_generation_verified_mono pkToSpendAddr fetch txVerify
        genesis_src_tx genesis_id hashTx st.depth st.txs_to_verify st.verified_tx v'
        raw hgen g hg
    · intro tx htx
      have hp := (List.mem_filter.mp htx).2
      have : ¬ (v'.contains (hashTx tx) = true) := of_decide_eq_true hp
      simpa using this

/-- Once a hash is in `verified_tx`, it stays there under iteration and every
later frontier avoids it. -/
theorem verify_spend_iterate_keeps_verified
    (n : Nat) (st st' : VerifyWalkState) (h : Hash)
    (hh : h ∈ st.verified_tx) (hn : 1 ≤ n)
    (hiter : verify_spend_iterate pkToSpendAddr fetch txVerify genesis_src_tx genesis_id
      hashTx n st = .ok st') :
    h ∈ st'.verified_tx ∧ ∀ tx ∈ st'.txs_to_verify, hashTx tx ≠ h := by
  induction n generalizing st with
  | zero => omega
  | succ m ih =>
    simp only [verify_spend_iterate] at hiter
    cases hnext : verify_spend_next pkToSpendAddr fetch txVerify genesis_src_tx
        genesis_id hashTx st with
    | error e => rw [hnext] at hiter; exact absurd hiter (by simp)
    | ok st1 =>
      rw [hnext] at hiter
      have hmono := verify_spend_next_ok_invariant pkToSpendAddr fetch txVerify
        genesis_src_tx genesis_id hashTx st st1 hnext
      have hh1 : h ∈ st1.verified_tx := hmono.1 h hh
      cases m with
      | zero =>
        simp only [verify_spend_iterate, Except.ok.injEq] at hiter
        subst hiter
        refine ⟨hh1, fun tx htx heq => ?_⟩
        exact (hmono.2 tx htx) (heq ▸ hh1)
      | succ k => exact ih st1 hh1 (by omega) hiter

/-- The loop returns successfully only by reaching an empty frontier. -/
theorem verify_spend_loop_ok_reaches_empty
    (fuel : Nat) (st : VerifyWalkState) (v : List Hash)
    (hloop : verify_spend_loop pkToSpendAddr fetch txVerify genesis_src_tx genesis_id
      hashTx fuel st = some (.ok v)) :
    ∃ k d, k < fuel ∧
      verify_spend_iterate pkToSpendAddr fetch txVerify genesis_src_tx genesis_id
        hashTx k st = .ok ⟨[], v, d⟩ := by
  induction fuel generalizing st with
  | zero => simp [verify_spend_loop] at hloop
  | succ m ih =>
    obtain ⟨txs, verified_tx, depth⟩ := st
    cases txs with
    | nil =>
      simp only [verify_spend_loop, Option.some.injEq, Except.ok.injEq] at hloop
      exact ⟨0, depth, Nat.succ_pos m, by simp [verify_spend_iterate, hloop]⟩
    | cons tx rest =>
      simp only [verify_spend_loop] at hloop
      cases hnext : verify_spend_next pkToSpendAddr fetch txVerify genesis_src_tx
          genesis_id hashTx ⟨tx :: rest, verified_tx, depth⟩ with
      | error e => rw [hnext] at hloop; exact absurd hloop (by simp)
      | ok st1 =>
        rw [hnext] at hloop
        obtain ⟨k, d, hk, hiter⟩ := ih st1 hloop
        exact ⟨k + 1, d, by omega, by simp [verify_spend_iterate, hnext, hiter]⟩

end VerifyWalk

/-! ## Theorem and witness for C6 -/

/-- **C6.** In `verify_spend(addr, to_genesis=true)`, every ancestor
transaction is verified at most once: one loop transition only grows
`verified_tx` and emits a frontier disjoint from it, so once a transaction
hash is in `verified_tx` no later generation's frontier contains a
transaction with that hash; the walk exits successfully exactly when the
frontier becomes empty; and a successful generation means every processed
transaction either was the genesis terminator or passed
`verify_against_inputs_spent`. -/
theorem verify_spend_ancestor_walk
    (pkToSpendAddr : UniquePubkey → SpendAddress)
    (fetch : SpendAddress → Except ClientError SignedSpend)
    (txVerify : Transaction → List SignedSpend → Bool)
    (genesis_src_tx : Transaction) (genesis_id : UniquePubkey)
    (hashTx : Transaction → Hash)
    (st st' : VerifyWalkState) (h : Hash) (n fuel : Nat)
    (verified_tx v' : List Hash) (depth : Nat)
    (txs nexts : List Transaction) (v : List Hash) :
    ((verify_spend_next pkToSpendAddr fetch txVerify genesis_src_tx genesis_id hashTx
        st = .ok st') →
      (∀ g ∈ st.verified_tx, g ∈ st'.verified_tx) ∧
      (∀ tx ∈ st'.txs_to_verify, hashTx tx ∉ st'.verified_tx)) ∧
    (h ∈ st.verified_tx → 1 ≤ n →
      verify_spend_iterate pkToSpendAddr fetch txVerify genesis_src_tx genesis_id hashTx
        n st = .ok st' →
      h ∈ st'.verified_tx ∧ ∀ tx ∈ st'.txs_to_verify, hashTx tx ≠ h) ∧
    (verify_spend_loop pkToSpendAddr fetch txVerify genesis_src_tx genesis_id hashTx
      (fuel + 1) ⟨[], verified_tx, depth⟩ = some (.ok verified_tx)) ∧
    (verify_spend_loop pkToSpendAddr fetch txVerify genesis_src_tx genesis_id hashTx
        fuel st = some (.ok v) →
      ∃ k d, k < fuel ∧
        verify_spend_iterate pkToSpendAddr fetch txVerify genesis_src_tx genesis_id
          hashTx k st = .ok ⟨[], v, d⟩) ∧
    (verify_generation pkToSpendAddr fetch txVerify genesis_src_tx genesis_id hashTx
        depth txs verified_tx = .ok (v', nexts) →
      ∀ tx ∈ txs, ∃ spends,
        collect_parent_spends pkToSpendAddr fetch tx = .ok spends ∧
        (reached_genesis genesis_src_tx genesis_id tx spends = true ∨
         txVerify tx spends = true)) := by
  refine ⟨?_, ?_, rfl, ?_, ?_⟩
  · exact verify_spend_next_ok_invariant pkToSpendAddr fetch txVerify genesis_src_tx
      genesis_id hashTx st st'
  · exact fun hh hn hiter => verify_spend_iterate_keeps_verified pkToSpendAddr fetch
      txVerify genesis_src_tx genesis_id hashTx n st st' h hh hn hiter
  · exact verify_spend_loop_ok_reaches_empty pkToSpendAddr fetch txVerify genesis_src_tx
      genesis_id hashTx fuel st v
  · exact verify_generation_per_tx pkToSpendAddr fetch txVerify genesis_src_tx
      genesis_id hashTx depth txs verified_tx v' nexts

/-- Concrete transaction for the C6 witness: one input with key 3. -/
def wTxIn : Transaction :=
  { inputs := [{ unique_pubkey := 3, amount := 0 }], outputs := [] }

/-- Concrete `verify_against_inputs_spent` oracle for the C6 witness. -/
def wTxVerify : Transaction → List SignedSpend → Bool := fun _ _ => true

/-- Witness for C6 on a one-transaction walk: the transition invariant, the
verified-hash persistence, the loop success and the per-transaction
verification condition, all at concrete inputs. -/
theorem verify_spend_ancestor_walk_witness :
    ((∀ g ∈ (⟨[wTxIn], [], 0⟩ : VerifyWalkState).verified_tx,
        g ∈ (⟨[], [7], 1⟩ : VerifyWalkState).verified_tx) ∧
     (∀ tx ∈ (⟨[], [7], 1⟩ : VerifyWalkState).txs_to_verify,
        wHashTx tx ∉ (⟨[], [7], 1⟩ : VerifyWalkState).verified_tx)) ∧
    (42 ∈ (⟨[], [42, 7], 1⟩ : VerifyWalkState).verified_tx ∧
      ∀ tx ∈ (⟨[], [42, 7], 1⟩ : VerifyWalkState).txs_to_verify, wHashTx tx ≠ 42) ∧
    (∃ k d, k < 2 ∧
      verify_spend_iterate id wFetchBenign wTxVerify wTx 9 wHashTx k
        ⟨[wTxIn], [], 0⟩ = .ok ⟨[], [7], d⟩) ∧
    (∀ tx ∈ [wTxIn], ∃ spends,
      collect_parent_spends id wFetchBenign tx = .ok spends ∧
      (reached_genesis wTx 9 tx spends = true ∨ wTxVerify tx spends = true)) :=
  ⟨(verify_spend_ancestor_walk id wFetchBenign wTxVerify wTx 9 wHashTx
      ⟨[wTxIn], [], 0⟩ ⟨[], [7], 1⟩ 0 0 0 [] [] 0 [] [] []).1 rfl,
   (verify_spend_ancestor_walk id wFetchBenign wTxVerify wTx 9 wHashTx
      ⟨[wTxIn], [42], 0⟩ ⟨[], [42, 7], 1⟩ 42 1 0 [] [] 0 [] [] []).2.1
      (by decide) (by decide) rfl,
   (verify_spend_ancestor_walk id wFetchBenign wTxVerify wTx 9 wHashTx
      ⟨[wTxIn], [], 0⟩ ⟨[], [], 0⟩ 0 0 2 [] [] 0 [] [] [7]).2.2.2.1 rfl,
   (verify_spend_ancestor_walk id wFetchBenign wTxVerify wTx 9 wHashTx
      ⟨[], [], 0⟩ ⟨[], [], 0⟩ 0 0 0 [] [7] 0 [wTxIn] [wTx] []).2.2.2.2 rfl⟩

/-! ## Watch-only wallet (sn_transfers/src/wallet/watch_only.rs)

`CashNote`, `MainPubkey` and the key-derivation/valuation functions live in
the external part of `sn_transfers`; they are abstracted as a type parameter
with three oracles (`unique_pubkey`, `derived_pubkey_ok` — the `is_ok` of
`CashNote::derived_pubkey` — and `cnValue` for the fallible
`CashNote::value`).  File-system interaction is modelled by an explicit
`DiskState` plus an effect trace. -/

/-- Main wallet public key, abstracted. -/
abbrev MainPubkey := Nat

/-- Content address key of `payment_transactions`, abstracted. -/
abbrev XorName := Nat

/-- Payment record value, abstracted. -/
abbrev PaymentDetails := Nat

/-- The keyless-wallet file payload: `available_cash_notes` and
`payment_transactions`; the `BTreeMap`s are modelled as association lists. -/
structure KeyLessWallet where
  available_cash_notes : List (UniquePubkey × NanoTokens)
  payment_transactions : List (XorName × PaymentDetails)
deriving DecidableEq, Repr

/-- `BTreeMap::insert`: replace the value at an existing key, keep order,
else append. -/
def insertAssoc (k : UniquePubkey) (v : NanoTokens) :
    List (UniquePubkey × NanoTokens) → List (UniquePubkey × NanoTokens)
  | [] => [(k, v)]
  | (k', v') :: rest =>
    if k' = k then (k, v) :: rest else (k', v') :: insertAssoc k v rest

/-- `KeyLessWallet::balance`.  Modelled from the spec: the balance function
itself lives in the external part of `sn_transfers`; the wallet balance is
the total of the `available_cash_notes` amounts. -/
def KeyLessWallet.balance (w : KeyLessWallet) : NanoTokens :=
  (w.available_cash_notes.map Prod.snd).sum

/-- `KeyLessWallet::default()`. -/
def KeyLessWallet.empty : KeyLessWallet := ⟨[], []⟩

/-- `WatchOnlyWallet`: main pubkey, wallet directory (an opaque token here)
and the keyless wallet. -/
structure WatchOnlyWallet where
  main_pubkey : MainPubkey
  wallet_dir : Nat
  keyless_wallet : KeyLessWallet
deriving DecidableEq, Repr

/-- Wallet errors reachable from the embedded wallet paths: the error
propagated out of `CashNote::value` and the pubkey-mismatch of `load_from`. -/
inductive WalletStoreError where
  | CashNoteValue (code : Nat)
  | PubKeyMismatch (dir : Nat)
deriving DecidableEq, Repr

/-- The on-disk wallet directory: the `main_pubkey` file, the `wallet` file
and the `cash_notes/<unique_pubkey>` files. -/
structure DiskState where
  main_pubkey_file : Option MainPubkey
  wallet_file : Option KeyLessWallet
  cash_note_files : List UniquePubkey
deriving DecidableEq, Repr

/-- File-system side effects of the wallet operations, in order. -/
inductive FsEffect where
  | CreateDir
  | LockAcquire
  | StorePubkey
  | StoreWallet
  | StoreCashNote (id : UniquePubkey)
  | LockRelease
deriving DecidableEq, Repr

section Wallet

variable {CashNote : Type}
variable (unique_pubkey : CashNote → UniquePubkey)
variable (derived_pubkey_ok : CashNote → MainPubkey → Bool)
variable (cnValue : CashNote → Except Nat NanoTokens)

/-- `WatchOnlyWallet::deposit` (watch_only.rs lines 102-119), with the
`&mut self` semantics made explicit: the returned wallet carries the inserts
made before an error.  A cash note whose derived pubkey cannot be obtained
is skipped; a `value()` failure propagates. -/
def WatchOnlyWallet.deposit (w : WatchOnlyWallet) :
    List CashNote → WatchOnlyWallet × Except WalletStoreError Unit
  | [] => (w, .ok ())
  | cash_note :: rest =>
    if !(derived_pubkey_ok cash_note w.main_pubkey) then
      WatchOnlyWallet.deposit w rest
    else
      match cnValue cash_note with
      | .error e => (w, .error (.CashNoteValue e))
      | .ok value =>
        let kw' : KeyLessWallet :=
          { w.keyless_wallet with
            available_cash_notes :=
              insertAssoc (unique_pubkey cash_note) value
                w.keyless_wallet.available_cash_notes }
        WatchOnlyWallet.deposit { w with keyless_wallet := kw' } rest

/-- The deposit loop of `deposit_and_store_to_disk` (watch_only.rs lines
136-148): same skip behaviour as `deposit`, additionally storing each
deposited cash note to the `cash_notes` dir. -/
def deposit_disk_loop (main_pubkey : MainPubkey) :
    List CashNote → KeyLessWallet → DiskState →
    Except WalletStoreError Unit × KeyLessWallet × DiskState × List FsEffect
  | [], kw, disk => (.ok (), kw, disk, [])
  | cash_note :: rest, kw, disk =>
    if !(derived_pubkey_ok cash_note main_pubkey) then
      deposit_disk_loop main_pubkey rest kw disk
    else
      match cnValue cash_note with
      | .error e => (.error (.CashNoteValue e), kw, disk, [])
      | .ok value =>
        let kw' : KeyLessWallet :=
          { kw with
            available_cash_notes :=
              insertAssoc (unique_pubkey cash_note) value kw.available_cash_notes }
        let disk' : DiskState :=
          { disk with
            cash_note_files := disk.cash_note_files ++ [unique_pubkey cash_note] }
        match deposit_disk_loop main_pubkey rest kw' disk' with
        | (r, kw'', disk'', effs) =>
          (r, kw'', disk'', .StoreCashNote (unique_pubkey cash_note) :: effs)

/-- `WatchOnlyWallet::load_from` (watch_only.rs lines 54-87): check or store
the main pubkey file, then read the wallet file or store a default one. -/
def WatchOnlyWallet.load_from (wallet_dir : Nat) (disk : DiskState)
    (main_pubkey : MainPubkey) :
    Except WalletStoreError WatchOnlyWallet × DiskState × List FsEffect :=
  match disk.main_pubkey_file with
  | some pk =>
    if pk ≠ main_pubkey then
      (.error (.PubKeyMismatch wallet_dir), disk, [])
    else
      match disk.wallet_file with
      | some kw => (.ok ⟨pk, wallet_dir, kw⟩, disk, [])
      | none =>
        (.ok ⟨pk, wallet_dir, KeyLessWallet.empty⟩,
         { disk with wallet_file := some KeyLessWallet.empty }, [.StoreWallet])
  | none =>
    let disk1 : DiskState := { disk with main_pubkey_file := some main_pubkey }
    match disk1.wallet_file with
    | some kw =>
      (.ok ⟨main_pubkey, wallet_dir, kw⟩, disk1, [.CreateDir, .StorePubkey])
    | none =>
      (.ok ⟨main_pubkey, wallet_dir, KeyLessWallet.empty⟩,
       { disk1 with wallet_file := some KeyLessWallet.empty },
       [.CreateDir, .StorePubkey, .StoreWallet])

/-- `WatchOnlyWallet::deposit_and_store_to_disk` (watch_only.rs lines
124-151): an empty input returns `Ok` before touching the file system;
otherwise create the dir, take the exclusive lock, reload from disk, run the
deposit loop, store the wallet and release the lock. -/
def WatchOnlyWallet.deposit_and_store_to_disk (w : WatchOnlyWallet)
    (disk : DiskState) (received_cash_notes : List CashNote) :
    Except WalletStoreError Unit × WatchOnlyWallet × DiskState × List FsEffect :=
  if received_cash_notes.isEmpty then
    (.ok (), w, disk, [])
  else
    match WatchOnlyWallet.load_from w.wallet_dir disk w.main_pubkey with
    | (.error e, disk1, effs1) =>
      (.error e, w, disk1, [.CreateDir, .LockAcquire] ++ effs1 ++ [.LockRelease])
    | (.ok w1, disk1, effs1) =>
      match deposit_disk_loop unique_pubkey derived_pubkey_ok cnValue w1.main_pubkey
          received_cash_notes w1.keyless_wallet disk1 with
      | (.error e, kw2, disk2, effs2) =>
        (.error e, { w1 with keyless_wallet := kw2 }, disk2,
         [.CreateDir, .LockAcquire] ++ effs1 ++ effs2 ++ [.LockRelease])
      | (.ok _, kw2, disk2, effs2) =>
        (.ok (), { w1 with keyless_wallet := kw2 },
         { disk2 with wallet_file := some kw2 },
         [.CreateDir, .LockAcquire] ++ effs1 ++ effs2 ++ [.StoreWallet, .LockRelease])

end Wallet

/-! ## Lemmas and theorems for the wallet claims -/

/-- Replacing a key with the same value twice equals doing it once. -/
theorem insertAssoc_idem (k : UniquePubkey) (v : NanoTokens)
    (l : List (UniquePubkey × NanoTokens)) :
    insertAssoc k v (insertAssoc k v l) = insertAssoc k v l := by
  induction l with
  | nil => simp [insertAssoc]
  | cons p rest ih =>
    obtain ⟨k', v'⟩ := p
    by_cases hk : k' = k
    · subst hk
      simp [insertAssoc]
    · simp [insertAssoc, hk, ih]

/-- A non-derivable cash note anywhere in the list is skipped by `deposit`. -/
theorem deposit_skip_aux {CashNote : Type}
    (unique_pubkey : CashNote → UniquePubkey)
    (derived_pubkey_ok : CashNote → MainPubkey → Bool)
    (cnValue : CashNote → Except Nat NanoTokens)
    (cn : CashNote) (m : MainPubkey)
    (hfail : derived_pubkey_ok cn m = false) :
    ∀ (xs ys : List CashNote) (w : WatchOnlyWallet), w.main_pubkey = m →
      WatchOnlyWallet.deposit unique_pubkey derived_pubkey_ok cnValue w (xs ++ cn :: ys) =
        WatchOnlyWallet.deposit unique_pubkey derived_pubkey_ok cnValue w (xs ++ ys) := by
  intro xs
  induction xs with
  | nil =>
    intro ys w hm
    simp only [List.nil_append, WatchOnlyWallet.deposit]
    rw [hm, hfail]
    simp
  | cons x xs' ih =>
    intro ys w hm
    simp only [List.cons_append, WatchOnlyWallet.deposit]
    by_cases hx : derived_pubkey_ok x w.main_pubkey = true
    · simp only [hx, Bool.not_true, Bool.false_eq_true, if_false]
      cases hv : cnValue x with
      | error e => simp
      | ok value =>
        dsimp only
        exact ih ys _ hm
    · simp only [Bool.not_eq_true] at hx
      simp only [hx, Bool.not_false, if_true]
      exact ih ys w hm

/-- A non-derivable cash note anywhere in the list is skipped by the disk
deposit loop. -/
theorem deposit_disk_loop_skip_aux {CashNote : Type}
    (unique_pubkey : CashNote → UniquePubkey)
    (derived_pubkey_ok : CashNote → MainPubkey → Bool)
    (cnValue : CashNote → Except Nat NanoTokens)
    (cn : CashNote) (m : MainPubkey)
    (hfail : derived_pubkey_ok cn m = false) :
    ∀ (xs ys : List CashNote) (kw : KeyLessWallet) (disk : DiskState),
      deposit_disk_loop unique_pubkey derived_pubkey_ok cnValue m (xs ++ cn :: ys) kw disk =
        deposit_disk_loop unique_pubkey derived_pubkey_ok cnValue m (xs ++ ys) kw disk := by
  intro xs
  induction xs with
  | nil =>
    intro ys kw disk
    simp only [List.nil_append, deposit_disk_loop]
    rw [hfail]
    simp
  | cons x xs' ih =>
    intro ys kw disk
    simp only [List.cons_append, deposit_disk_loop]
    by_cases hx : derived_pubkey_ok x m = true
    · simp only [hx, Bool.not_true, Bool.false_eq_true, if_false]
      cases hv : cnValue x with
      | error e => simp
      | ok value =>
        dsimp only
        simp only [List.append_eq]
        rw [ih]
    · simp only [Bool.not_eq_true] at hx
      simp only [hx, Bool.not_false, if_true]
      exact ih ys kw disk

/-- **C7.** A cash note whose derived public key cannot be obtained from the
wallet's main public key is skipped by `deposit` (and by the deposit loop of
`deposit_and_store_to_disk`): the call returns `Ok` and leaves
`available_cash_notes`, `payment_transactions` and the balance exactly as
they were. -/
theorem deposit_skips_foreign_cash_note {CashNote : Type}
    (unique_pubkey : CashNote → UniquePubkey)
    (derived_pubkey_ok : CashNote → MainPubkey → Bool)
    (cnValue : CashNote → Except Nat NanoTokens)
    (w : WatchOnlyWallet) (cn : CashNote) (xs ys : List CashNote)
    (kw : KeyLessWallet) (disk : DiskState)
    (hfail : derived_pubkey_ok cn w.main_pubkey = false) :
    (WatchOnlyWallet.deposit unique_pubkey derived_pubkey_ok cnValue w [cn] =
      (w, .ok ())) ∧
    ((WatchOnlyWallet.deposit unique_pubkey derived_pubkey_ok cnValue w
        [cn]).1.keyless_wallet.available_cash_notes =
      w.keyless_wallet.available_cash_notes) ∧
    ((WatchOnlyWallet.deposit unique_pubkey derived_pubkey_ok cnValue w
        [cn]).1.keyless_wallet.payment_transactions =
      w.keyless_wallet.payment_transactions) ∧
    ((WatchOnlyWallet.deposit unique_pubkey derived_pubkey_ok cnValue w
        [cn]).1.keyless_wallet.balance = w.keyless_wallet.balance) ∧
    (WatchOnlyWallet.deposit unique_pubkey derived_pubkey_ok cnValue w
        (xs ++ cn :: ys) =
      WatchOnlyWallet.deposit unique_pubkey derived_pubkey_ok cnValue w (xs ++ ys)) ∧
    (deposit_disk_loop unique_pubkey derived_pubkey_ok cnValue w.main_pubkey
        (xs ++ cn :: ys) kw disk =
      deposit_disk_loop unique_pubkey derived_pubkey_ok cnValue w.main_pubkey
        (xs ++ ys) kw disk) := by
  have hone : WatchOnlyWallet.deposit unique_pubkey derived_pubkey_ok cnValue w [cn] =
      (w, .ok ()) := by
    simp [WatchOnlyWallet.deposit, hfail]
  refine ⟨hone, by rw [hone], by rw [hone], by rw [hone], ?_, ?_⟩
  · exact deposit_skip_aux unique_pubkey derived_pubkey_ok cnValue cn w.main_pubkey
      hfail xs ys w rfl
  · exact deposit_disk_loop_skip_aux unique_pubkey derived_pubkey_ok cnValue cn
      w.main_pubkey hfail xs ys kw disk

/-- **C8.** `deposit` is idempotent: depositing the same cash note twice in
sequence yields exactly the wallet of a single deposit. -/
theorem deposit_idempotent {CashNote : Type}
    (unique_pubkey : CashNote → UniquePubkey)
    (derived_pubkey_ok : CashNote → MainPubkey → Bool)
    (cnValue : CashNote → Except Nat NanoTokens)
    (w : WatchOnlyWallet) (cn : CashNote) :
    WatchOnlyWallet.deposit unique_pubkey derived_pubkey_ok cnValue
      (WatchOnlyWallet.deposit unique_pubkey derived_pubkey_ok cnValue w [cn]).1 [cn] =
    WatchOnlyWallet.deposit unique_pubkey derived_pubkey_ok cnValue w [cn] := by
  by_cases hd : derived_pubkey_ok cn w.main_pubkey = true
  · cases hv : cnValue cn with
    | error e =>
      simp [WatchOnlyWallet.deposit, hd, hv]
    | ok value =>
      simp [WatchOnlyWallet.deposit, hd, hv, insertAssoc_idem]
  · simp only [Bool.not_eq_true] at hd
    simp [WatchOnlyWallet.deposit, hd]

/-- **C10.** `deposit_and_store_to_disk` on an empty list returns `Ok`
immediately with no file-system effects: no directory creation, no lock, no
reload, no write; both the in-memory wallet and the disk state are
unchanged. -/
theorem deposit_and_store_to_disk_empty_is_noop {CashNote : Type}
    (unique_pubkey : CashNote → UniquePubkey)
    (derived_pubkey_ok : CashNote → MainPubkey → Bool)
    (cnValue : CashNote → Except Nat NanoTokens)
    (w : WatchOnlyWallet) (disk : DiskState) :
    WatchOnlyWallet.deposit_and_store_to_disk unique_pubkey derived_pubkey_ok cnValue
      w disk ([] : List CashNote) = (.ok (), w, disk, []) := rfl

/-- Concrete cash-note oracles for the C7 witness: notes are numbers, note 5
is not derivable from any main key. -/
def wCnDerivedOk : Nat → MainPubkey → Bool := fun cn _ => cn ≠ 5

/-- Concrete cash-note valuation for the C7 witness. -/
def wCnValue : Nat → Except Nat NanoTokens := fun cn => .ok cn

/-- Concrete wallet for the C7 witness. -/
def wWallet : WatchOnlyWallet := ⟨0, 0, ⟨[], []⟩⟩

/-- Witness for C7 at a concrete non-derivable cash note. -/
theorem deposit_skips_foreign_cash_note_witness :
    (WatchOnlyWallet.deposit id wCnDerivedOk wCnValue wWallet [5] = (wWallet, .ok ())) ∧
    ((WatchOnlyWallet.deposit id wCnDerivedOk wCnValue wWallet
        [5]).1.keyless_wallet.available_cash_notes =
      wWallet.keyless_wallet.available_cash_notes) ∧
    ((WatchOnlyWallet.deposit id wCnDerivedOk wCnValue wWallet
        [5]).1.keyless_wallet.payment_transactions =
      wWallet.keyless_wallet.payment_transactions) ∧
    ((WatchOnlyWallet.deposit id wCnDerivedOk wCnValue wWallet
        [5]).1.keyless_wallet.balance = wWallet.keyless_wallet.balance) ∧
    (WatchOnlyWallet.deposit id wCnDerivedOk wCnValue wWallet ([3] ++ 5 :: [4]) =
      WatchOnlyWallet.deposit id wCnDerivedOk wCnValue wWallet ([3] ++ [4])) ∧
    (deposit_disk_loop id wCnDerivedOk wCnValue wWallet.main_pubkey ([3] ++ 5 :: [4])
        ⟨[], []⟩ ⟨none, none, []⟩ =
      deposit_disk_loop id wCnDerivedOk wCnValue wWallet.main_pubkey ([3] ++ [4])
        ⟨[], []⟩ ⟨none, none, []⟩) :=
  deposit_skips_foreign_cash_note id wCnDerivedOk wCnValue wWallet 5 [3] [4]
    ⟨[], []⟩ ⟨none, none, []⟩ (by decide)
